import Mathlib

/-!
Verification of `third_party/contracts/tools/verify_contracts.py`.

This file gives a shallow embedding of the contract-verification tool and
proves the specified properties about it.  Conventions of the embedding:

* Raw file bytes are modelled as `String` (fixtures are UTF-8 text; two
  byte sequences that are valid UTF-8 are equal iff the decoded strings
  are equal, so byte-for-byte comparison of UTF-8 data is string equality).
* Python `json` numbers are modelled as integers (`Int`).  Fractional and
  exponent literals, `NaN` and `Infinity` are outside the model: the
  embedded parser rejects them.
* Python regular expressions are modelled as executable character-list
  predicates, with `\d`, `[a-z]`, `[A-Z]` read as the ASCII classes.
* Python exceptions are modelled with `Option`/`Except`; a `try/except`
  block is a `match` on the `Except` value.
* The third-party `jsonschema` validator is external to the repository, so
  it enters the model as an oracle parameter
  (`iterErrors : Json → Json → Except String (List String)`); a thrown
  exception is its `.error` case.
-/

namespace VerifyContracts

/-! ## String comparison and the path order used by discovery

Python compares `str` values lexicographically by Unicode code point, and
`sorted` is a stable comparison sort.  `pathlib.PurePath.__lt__` (used by
`sorted(goldens_dir.rglob("*.json"))`) does **not** compare the joined
path strings: it compares the tuples of path components (`_cparts`, with
case normalization the identity on POSIX), each component as a string.
The two orders differ exactly when a directory name at some level is a
proper prefix of a sibling entry: `goldens/a/b.json` sorts before
`goldens/a.json` as paths, after it as strings.  All discovered paths
share the contracts-root components, so comparing relative component
tuples gives the same order as comparing the full paths. -/

/-- Lexicographic `≤` on character lists, by code point. -/
def charListLe : List Char → List Char → Bool
  | [], _ => true
  | _ :: _, [] => false
  | a :: as, b :: bs =>
    if a.toNat < b.toNat then true
    else if b.toNat < a.toNat then false
    else charListLe as bs

/-- Lexicographic `≤` on strings, by code point (Python `str` order). -/
def strLe (a b : String) : Bool := charListLe a.data b.data

/-- Insert `x` into a list, before the first element `y` with `le x y`
(the insertion step of a stable insertion sort). -/
def insertLe (le : α → α → Bool) (x : α) : List α → List α
  | [] => [x]
  | y :: ys => if le x y then x :: y :: ys else y :: insertLe le x ys

/-- Stable insertion sort with comparator `le`; models Python `sorted`. -/
def sortLe (le : α → α → Bool) : List α → List α
  | [] => []
  | x :: xs => insertLe le x (sortLe le xs)

/-- Strict code-point lexicographic `<` on character lists (Python `str`
comparison), derived from the `≤` test. -/
def charListLt (a b : List Char) : Bool := charListLe a b && !(charListLe b a)

/-- Split a relative path into its `/`-separated components, as character
lists: the model of `PurePath.parts` for a relative POSIX path. -/
def splitSlashChars : List Char → List (List Char)
  | [] => [[]]
  | c :: cs =>
    if c = '/' then [] :: splitSlashChars cs
    else
      match splitSlashChars cs with
      | [] => [[c]]
      | p :: ps => (c :: p) :: ps

/-- Rejoin components with `/`; the inverse of `splitSlashChars`. -/
def joinSlash : List (List Char) → List Char
  | [] => []
  | [p] => p
  | p :: ps => p ++ '/' :: joinSlash ps

/-- Lexicographic `≤` on component tuples, elementwise by the strict
string order with a prefix tuple ordered before its extensions — how
Python compares tuples of strings. -/
def partsLe : List (List Char) → List (List Char) → Bool
  | [], _ => true
  | _ :: _, [] => false
  | a :: as, b :: bs =>
    if charListLt a b then true
    else if charListLt b a then false
    else partsLe as bs

/-- The path order used by `sorted(goldens_dir.rglob("*.json"))`:
`PurePath.__lt__` compares the tuples of path components, not the joined
path strings. -/
def pathLe (a b : String) : Bool :=
  partsLe (splitSlashChars a.data) (splitSlashChars b.data)

/-! ## JSON documents

The tagged union produced by `json.loads`: null, booleans, numbers
(integers in this model), strings, arrays, and objects with
insertion-ordered keys. -/

inductive Json where
  | null
  | bool (b : Bool)
  | num (n : Int)
  | str (s : String)
  | arr (items : List Json)
  | obj (members : List (String × Json))

/-! ## `canonical_bytes`: the model of
`json.dumps(data, sort_keys=True, separators=(",", ":")) + "\n"` -/

/-- Lowercase hexadecimal digit, as used by `%04x` formatting. -/
def hexDigitChar (n : Nat) : Char :=
  if n < 10 then Char.ofNat (48 + n) else Char.ofNat (87 + n)

/-- Four-digit `\uXXXX` escape with lowercase hex digits. -/
def uEscape (n : Nat) : String :=
  "\\u" ++ String.mk [hexDigitChar (n / 4096 % 16), hexDigitChar (n / 256 % 16),
    hexDigitChar (n / 16 % 16), hexDigitChar (n % 16)]

/-- Escaping of one character by `json.dumps` with the default
`ensure_ascii=True`: printable ASCII except `"` and `\` is literal,
the two-character escapes cover the usual control characters, every
other character becomes `\uXXXX` (a surrogate pair above U+FFFF). -/
def escapeChar (c : Char) : String :=
  if c = '"' then "\\\""
  else if c = '\\' then "\\\\"
  else if c = '\n' then "\\n"
  else if c = '\r' then "\\r"
  else if c = '\t' then "\\t"
  else if c = '\x08' then "\\b"
  else if c = '\x0c' then "\\f"
  else if c.toNat < 32 || c.toNat > 126 then
    if c.toNat ≤ 65535 then uEscape c.toNat
    else uEscape (55296 + (c.toNat - 65536) / 1024) ++ uEscape (56320 + (c.toNat - 65536) % 1024)
  else String.singleton c

/-- JSON string literal as written by `json.dumps` (quotes plus escapes). -/
def quoteStr (s : String) : String :=
  "\"" ++ String.join (s.data.map escapeChar) ++ "\""

/-- Decimal rendering of an integer, as Python `repr(int)`. -/
def intStr (n : Int) : String :=
  if n < 0 then "-" ++ Nat.repr n.natAbs else Nat.repr n.natAbs

/-- Sort the rendered members of an object by key (the
`sort_keys=True` order: `sorted(dct.items())`, keys compared first). -/
def sortPairsByKey (l : List (String × String)) : List (String × String) :=
  sortLe (fun a b => strLe a.1 b.1) l

/-- Render `"key":value` for one already-dumped object member. -/
def renderMember (p : String × String) : String := quoteStr p.1 ++ ":" ++ p.2

mutual

/-- The model of `json.dumps(data, sort_keys=True, separators=(",", ":"))`. -/
def dumpJson : Json → String
  | .null => "null"
  | .bool true => "true"
  | .bool false => "false"
  | .num n => intStr n
  | .str s => quoteStr s
  | .arr items => "[" ++ String.intercalate "," (dumpList items) ++ "]"
  | .obj kvs =>
    "\x7b" ++ String.intercalate "," ((sortPairsByKey (dumpMembers kvs)).map renderMember) ++ "\x7d"

/-- Dump each array element. -/
def dumpList : List Json → List String
  | [] => []
  | x :: xs => dumpJson x :: dumpList xs

/-- Dump each object member's value, keeping its key. -/
def dumpMembers : List (String × Json) → List (String × String)
  | [] => []
  | (k, v) :: xs => (k, dumpJson v) :: dumpMembers xs

end

/-- Model of `canonical_bytes` from the tool: the canonical serialization plus one
trailing newline, UTF-8 encoded (encoding is the identity in this model). -/
def canonical_bytes (data : Json) : String := dumpJson data ++ "\n"

/-! ## The model of `json.loads`

A fuel-indexed recursive-descent parser for strict JSON, following the
behaviour of Python's `json.loads`: the four JSON whitespace characters,
`null`/`true`/`false`, integer literals (`0` or a nonzero digit followed
by digits, optionally negated; a following `.`/`e`/`E` is rejected since
floats are outside the model), strings with the standard two-character
escapes and `\uXXXX` (surrogate pairs combined; lone surrogates are
outside the model), arrays, and objects whose duplicate keys are resolved
like a Python `dict` (first occurrence keeps its position, last value
wins).  After the top-level value only whitespace may remain.  The fuel
`2 * length + 8` strictly exceeds the number of recursive calls any input
can cause, so fuel exhaustion never occurs for `json_loads`. -/

/-- JSON whitespace accepted between tokens: space, tab, newline, return. -/
def isJsonWs (c : Char) : Bool := c = ' ' || c = '\t' || c = '\n' || c = '\r'

/-- Skip leading JSON whitespace. -/
def skipWs : List Char → List Char
  | [] => []
  | c :: cs => if isJsonWs c then skipWs cs else c :: cs

/-- Value of one hexadecimal digit (either case), if it is one. -/
def hexVal (c : Char) : Option Nat :=
  if 48 ≤ c.toNat && c.toNat ≤ 57 then some (c.toNat - 48)
  else if 97 ≤ c.toNat && c.toNat ≤ 102 then some (c.toNat - 87)
  else if 65 ≤ c.toNat && c.toNat ≤ 70 then some (c.toNat - 55)
  else none

/-- Read four hex digits (the `XXXX` of a `\uXXXX` escape). -/
def parseHex4 : List Char → Option (Nat × List Char)
  | a :: b :: c :: d :: rest => do
    let va ← hexVal a
    let vb ← hexVal b
    let vc ← hexVal c
    let vd ← hexVal d
    some (va * 4096 + vb * 256 + vc * 16 + vd, rest)
  | _ => none

/-- Parse a JSON string body after the opening quote, returning the
decoded characters and the input after the closing quote. -/
def parseStringBody (fuel : Nat) (cs : List Char) : Option (List Char × List Char) :=
  match fuel, cs with
  | 0, _ => none
  | _, [] => none
  | fuel + 1, c :: rest =>
    if c = '"' then some ([], rest)
    else if c = '\\' then
      match rest with
      | [] => none
      | e :: rest2 =>
        if e = '"' then (parseStringBody fuel rest2).map (fun p => ('"' :: p.1, p.2))
        else if e = '\\' then (parseStringBody fuel rest2).map (fun p => ('\\' :: p.1, p.2))
        else if e = '/' then (parseStringBody fuel rest2).map (fun p => ('/' :: p.1, p.2))
        else if e = 'b' then (parseStringBody fuel rest2).map (fun p => ('\x08' :: p.1, p.2))
        else if e = 'f' then (parseStringBody fuel rest2).map (fun p => ('\x0c' :: p.1, p.2))
        else if e = 'n' then (parseStringBody fuel rest2).map (fun p => ('\n' :: p.1, p.2))
        else if e = 'r' then (parseStringBody fuel rest2).map (fun p => ('\r' :: p.1, p.2))
        else if e = 't' then (parseStringBody fuel rest2).map (fun p => ('\t' :: p.1, p.2))
        else if e = 'u' then
          match parseHex4 rest2 with
          | none => none
          | some (n, rest3) =>
            if 55296 ≤ n && n ≤ 56319 then
              match rest3 with
              | '\\' :: 'u' :: rest4 =>
                match parseHex4 rest4 with
                | some (n2, rest5) =>
                  if 56320 ≤ n2 && n2 ≤ 57343 then
                    (parseStringBody fuel rest5).map
                      (fun p => (Char.ofNat (65536 + (n - 55296) * 1024 + (n2 - 56320)) :: p.1, p.2))
                  else none
                | none => none
              | _ => none
            else if 56320 ≤ n && n ≤ 57343 then none
            else (parseStringBody fuel rest3).map (fun p => (Char.ofNat n :: p.1, p.2))
        else none
    else if c.toNat < 32 then none
    else (parseStringBody fuel rest).map (fun p => (c :: p.1, p.2))

/-- Consume a maximal run of ASCII digits. -/
def takeDigits : List Char → List Char × List Char
  | [] => ([], [])
  | c :: cs =>
    if c.isDigit then
      let (ds, r) := takeDigits cs
      (c :: ds, r)
    else ([], c :: cs)

/-- Numeric value of a digit run. -/
def digitsToNat : List Char → Nat → Nat
  | [], acc => acc
  | c :: cs, acc => digitsToNat cs (acc * 10 + (c.toNat - 48))

/-- Reject a number that continues with `.`/`e`/`E` (a float literal,
which Python would parse but the model excludes). -/
def rejectFloatTail (val : Nat) (rest : List Char) : Option (Nat × List Char) :=
  match rest with
  | [] => some (val, [])
  | c :: _ => if c = '.' || c = 'e' || c = 'E' then none else some (val, rest)

/-- JSON unsigned integer: `0`, or a nonzero digit followed by digits. -/
def parseNatCore : List Char → Option (Nat × List Char)
  | [] => none
  | c :: rest =>
    if c = '0' then rejectFloatTail 0 rest
    else if 49 ≤ c.toNat && c.toNat ≤ 57 then
      let (ds, r) := takeDigits rest
      rejectFloatTail (digitsToNat (c :: ds) 0) r
    else none

/-- JSON number (integer in this model), with optional leading minus. -/
def parseNumber : List Char → Option (Json × List Char)
  | '-' :: rest => (parseNatCore rest).map (fun p => (Json.num (-(p.1 : Int)), p.2))
  | cs => (parseNatCore cs).map (fun p => (Json.num (p.1 : Int), p.2))

/-- Python `dict` insert: replace the value of an existing key in place,
otherwise append the new member (how `json.loads` resolves duplicates). -/
def setKey : List (String × Json) → String → Json → List (String × Json)
  | [], k, v => [(k, v)]
  | (k0, v0) :: rest, k, v =>
    if k0 = k then (k0, v) :: rest else (k0, v0) :: setKey rest k v

mutual

/-- Parse one JSON value (leading whitespace allowed). -/
def parseValue (fuel : Nat) (cs : List Char) : Option (Json × List Char) :=
  match fuel with
  | 0 => none
  | fuel + 1 =>
    match skipWs cs with
    | [] => none
    | c :: rest =>
      if c = 'n' then
        match rest with
        | 'u' :: 'l' :: 'l' :: r => some (.null, r)
        | _ => none
      else if c = 't' then
        match rest with
        | 'r' :: 'u' :: 'e' :: r => some (.bool true, r)
        | _ => none
      else if c = 'f' then
        match rest with
        | 'a' :: 'l' :: 's' :: 'e' :: r => some (.bool false, r)
        | _ => none
      else if c = '"' then
        (parseStringBody fuel rest).map (fun p => (.str (String.mk p.1), p.2))
      else if c = '\x7b' then
        match skipWs rest with
        | '\x7d' :: r => some (.obj [], r)
        | cs2 => parseMembers fuel cs2 []
      else if c = '[' then
        match skipWs rest with
        | ']' :: r => some (.arr [], r)
        | cs2 => parseItems fuel cs2 []
      else parseNumber (c :: rest)

/-- Parse the members of a nonempty object, accumulating a `dict`. -/
def parseMembers (fuel : Nat) (cs : List Char) (acc : List (String × Json)) :
    Option (Json × List Char) :=
  match fuel with
  | 0 => none
  | fuel + 1 =>
    match skipWs cs with
    | '"' :: rest =>
      match parseStringBody fuel rest with
      | none => none
      | some (kcs, rest2) =>
        match skipWs rest2 with
        | ':' :: rest3 =>
          match parseValue fuel rest3 with
          | none => none
          | some (v, rest4) =>
            let acc2 := setKey acc (String.mk kcs) v
            match skipWs rest4 with
            | ',' :: rest5 => parseMembers fuel rest5 acc2
            | '\x7d' :: rest5 => some (.obj acc2, rest5)
            | _ => none
        | _ => none
    | _ => none

/-- Parse the elements of a nonempty array. -/
def parseItems (fuel : Nat) (cs : List Char) (acc : List Json) :
    Option (Json × List Char) :=
  match fuel with
  | 0 => none
  | fuel + 1 =>
    match parseValue fuel cs with
    | none => none
    | some (v, rest) =>
      match skipWs rest with
      | ',' :: rest2 => parseItems fuel rest2 (acc ++ [v])
      | ']' :: rest2 => some (.arr (acc ++ [v]), rest2)
      | _ => none

end

/-- The model of `json.loads`: parse one value and require that only
whitespace follows; `none` models a raised `json.JSONDecodeError`. -/
def json_loads (s : String) : Option Json :=
  match parseValue (2 * s.length + 8) s.data with
  | none => none
  | some (v, rest) => if (skipWs rest).isEmpty then some v else none

/-! ## `check_canonical` -/

/-- Message of the not-canonical record produced when the raw bytes fail
to parse as JSON.  The Python message continues with the decoder's
description of the parse position (`: {exc}`), which adds no information
to the model and is omitted. -/
def parse_error_msg (relPath : String) : String :=
  "NOT_CANONICAL: JSON parse error in " ++ relPath

/-- Message of the not-canonical record produced when the raw bytes parse
but differ from the recomputed canonical form. -/
def not_canonical_msg (relPath : String) : String := "NOT_CANONICAL: " ++ relPath

/-- Model of `check_canonical`: parse the raw bytes; a parse failure is
reported as a not-canonical record with the distinct parse-error message,
otherwise the raw bytes are compared byte-for-byte with
`canonical_bytes(json.loads(raw_bytes))`. -/
def check_canonical (rawBytes relPath : String) : List String :=
  match json_loads rawBytes with
  | none => [parse_error_msg relPath]
  | some data =>
    if rawBytes = canonical_bytes data then [] else [not_canonical_msg relPath]

/-! ## `check_schema` -/

/-- Association-list lookup, modelling Python `dict.get`. -/
def lookupKV : List (String × β) → String → Option β
  | [], _ => none
  | (k0, v) :: rest, k => if k0 = k then some v else lookupKV rest k

/-- Index of the last `.` in a character list, if any (Python `str.rfind`). -/
def lastDotIdx : List Char → Option Nat
  | [] => none
  | c :: cs =>
    match lastDotIdx cs with
    | some i => some (i + 1)
    | none => if c == '.' then some 0 else none

/-- Index of the last `/` in a character list, if any. -/
def lastSlashIdx : List Char → Option Nat
  | [] => none
  | c :: cs =>
    match lastSlashIdx cs with
    | some i => some (i + 1)
    | none => if c == '/' then some 0 else none

/-- Model of `pathlib.PurePath.stem` for a bare file name: the name
without its last suffix; the dot must be neither the first nor the last
character for a suffix to exist. -/
def pystem (name : String) : String :=
  match lastDotIdx name.data with
  | some i => if 0 < i ∧ i < name.data.length - 1 then String.mk (name.data.take i) else name
  | none => name

/-- Model of `pathlib.PurePath.name`: the part after the last `/`. -/
def basename (p : String) : String :=
  match lastSlashIdx p.data with
  | some i => String.mk (p.data.drop (i + 1))
  | none => p

/-- The static filename-stem-to-schema-file table `SCHEMA_MAP`. -/
def SCHEMA_MAP : List (String × String) :=
  [("Script", "Script.v1.json"),
   ("ShotList", "ShotList.v1.json"),
   ("AssetManifest", "AssetManifest.v1.json"),
   ("RenderPlan", "RenderPlan.v1.json"),
   ("RenderOutput", "RenderOutput.v1.json"),
   ("RenderPackage", "RenderPackage.v1.json"),
   ("EpisodeBundle", "EpisodeBundle.v1.json")]

/-- Message of the record produced when a mapped schema file is absent.
The Python message interpolates the full `schema_path`; the model renders
that path relative to the contracts directory. -/
def schema_not_found_msg (goldenName schemaFile : String) : String :=
  "SCHEMA_INVALID: " ++ goldenName ++ ": schema file not found: schemas/" ++ schemaFile

/-- Message of the record produced when loading or validating the schema
raises; `exc` is the exception's rendering. -/
def schema_exc_msg (goldenName exc : String) : String :=
  "SCHEMA_INVALID: " ++ goldenName ++ ": " ++ exc

/-- Message of the record produced when validation yields error messages:
at most the first three are joined with `"; "`. -/
def schema_errors_msg (goldenName : String) (errs : List String) : String :=
  "SCHEMA_INVALID: " ++ goldenName ++ ": " ++ String.intercalate "; " (errs.take 3)

/-- The body of `check_schema`'s `try` block: load the schema document
from the schema file's bytes (a parse failure there is a raised
`JSONDecodeError`; the model uses a fixed rendering for it, as the exact
Python text adds nothing), then run the external `jsonschema` validator,
itself allowed to raise. -/
def loadAndValidate (schemaBytes : String) (data : Json)
    (iterErrors : Json → Json → Except String (List String)) : Except String (List String) :=
  match json_loads schemaBytes with
  | none => Except.error "schema JSON parse error"
  | some schema => iterErrors schema data

/-- Model of `check_schema`: map the filename stem through `SCHEMA_MAP`
(no entry: skip), require the mapped schema file to exist, then load and
validate inside `try/except`, converting an exception into a single
SCHEMA_INVALID record and nonempty validator output into a single record
holding at most the first three messages. -/
def check_schema (data : Json) (goldenName : String)
    (schemaFiles : List (String × String))
    (iterErrors : Json → Json → Except String (List String)) : List String :=
  match lookupKV SCHEMA_MAP (pystem goldenName) with
  | none => []
  | some schemaFile =>
    match lookupKV schemaFiles schemaFile with
    | none => [schema_not_found_msg goldenName schemaFile]
    | some schemaBytes =>
      match loadAndValidate schemaBytes data iterErrors with
      | Except.error exc => [schema_exc_msg goldenName exc]
      | Except.ok [] => []
      | Except.ok errs => [schema_errors_msg goldenName errs]

/-! ## The determinism classifier: models of the module-level regexes and
of `_check_string_value` -/

/-- ASCII digit test, the model of `\d`. -/
def isAsciiDigit (c : Char) : Bool := 48 ≤ c.toNat && c.toNat ≤ 57

/-- Model of `_RE_DATETIME.match`: the anchored-at-start pattern
`\d{4}-\d{2}-\d{2}T\d{2}:\d{2}:\d{2}` as a test on the first 19
characters (anything may follow). -/
def matches_datetime (s : String) : Bool :=
  match s.data with
  | c0 :: c1 :: c2 :: c3 :: c4 :: c5 :: c6 :: c7 :: c8 :: c9 :: c10 :: c11 :: c12 :: c13
      :: c14 :: c15 :: c16 :: c17 :: c18 :: _ =>
    isAsciiDigit c0 && isAsciiDigit c1 && isAsciiDigit c2 && isAsciiDigit c3 && c4 == '-'
      && isAsciiDigit c5 && isAsciiDigit c6 && c7 == '-' && isAsciiDigit c8 && isAsciiDigit c9
      && c10 == 'T' && isAsciiDigit c11 && isAsciiDigit c12 && c13 == ':' && isAsciiDigit c14
      && isAsciiDigit c15 && c16 == ':' && isAsciiDigit c17 && isAsciiDigit c18
  | _ => false

/-- The fixed epoch sentinel `_EPOCH_SENTINEL`. -/
def EPOCH_SENTINEL : String := "1970-01-01T00:00:00Z"

/-- Lowercase hexadecimal digit test, the model of `[0-9a-f]`. -/
def isLowerHex (c : Char) : Bool := isAsciiDigit c || (97 ≤ c.toNat && c.toNat ≤ 102)

/-- Consume exactly `n` lowercase hex characters. -/
def takeLowerHex : Nat → List Char → Option (List Char)
  | 0, cs => some cs
  | _ + 1, [] => none
  | n + 1, c :: cs => if isLowerHex c then takeLowerHex n cs else none

/-- Consume exactly one `-`. -/
def expectDash : List Char → Option (List Char)
  | '-' :: cs => some cs
  | _ => none

/-- Model of the regex anchor `$` without `MULTILINE`: it matches at the
end of the string, or just before a newline that ends the string. -/
def matchEnd : List Char → Bool
  | [] => true
  | ['\n'] => true
  | _ => false

/-- Model of `_RE_UUID.match`: the fully anchored canonical 8-4-4-4-12
lowercase-hex UUID pattern. -/
def matches_uuid (s : String) : Bool :=
  (do
    let r1 ← takeLowerHex 8 s.data
    let r2 ← expectDash r1
    let r3 ← takeLowerHex 4 r2
    let r4 ← expectDash r3
    let r5 ← takeLowerHex 4 r4
    let r6 ← expectDash r5
    let r7 ← takeLowerHex 4 r6
    let r8 ← expectDash r7
    let r9 ← takeLowerHex 12 r8
    some (matchEnd r9)).getD false

/-- Does the input start with the given literal characters? -/
def startsWithChars : List Char → List Char → Bool
  | [], _ => true
  | _ :: _, [] => false
  | p :: ps, c :: cs => p == c && startsWithChars ps cs

/-- Consume the given literal characters, returning the remainder. -/
def dropChars : List Char → List Char → Option (List Char)
  | [], cs => some cs
  | _ :: _, [] => none
  | p :: ps, c :: cs => if p == c then dropChars ps cs else none

/-- Model of `_RE_FILE_URI.match`: the pattern `^file:///`. -/
def matches_file_uri (s : String) : Bool :=
  startsWithChars "file:///".data s.data

/-- Model of `_RE_FILE_URI_ALLOWED.match`: the pattern
`^file:///placeholder(/|$)`. -/
def matches_file_uri_allowed (s : String) : Bool :=
  match dropChars "file:///placeholder".data s.data with
  | none => false
  | some ('/' :: _) => true
  | some rest => matchEnd rest

/-- Model of `_RE_ABS_PATH.match`: the pattern `^/[a-z]|^[A-Z]:\\`. -/
def matches_abs_path (s : String) : Bool :=
  match s.data with
  | '/' :: c :: _ => 97 ≤ c.toNat && c.toNat ≤ 122
  | c :: ':' :: '\\' :: _ => 65 ≤ c.toNat && c.toNat ≤ 90
  | _ => false

/-- Quote character chosen by Python `repr` for a string: single quotes,
unless the string contains one and no double quote. -/
def reprQuote (s : String) : Char :=
  if s.data.contains '\'' && !(s.data.contains '"') then '"' else '\''

/-- Python `repr` escaping of one character (ASCII fragment: backslash,
the active quote, newline/return/tab, `\xHH` for other control
characters; other printable characters stay literal). -/
def reprEscapeChar (q c : Char) : String :=
  if c = '\\' then "\\\\"
  else if c = q then "\\" ++ String.singleton q
  else if c = '\n' then "\\n"
  else if c = '\r' then "\\r"
  else if c = '\t' then "\\t"
  else if c.toNat < 32 || c.toNat == 127 then
    "\\x" ++ String.mk [hexDigitChar (c.toNat / 16), hexDigitChar (c.toNat % 16)]
  else String.singleton c

/-- Model of Python `repr` on a string, as used by the `{value!r}`
interpolations in violation messages. -/
def pyRepr (s : String) : String :=
  String.singleton (reprQuote s) ++ String.join (s.data.map (reprEscapeChar (reprQuote s)))
    ++ String.singleton (reprQuote s)

/-- Message of the rule-1 record. -/
def datetime_msg (relPath key value : String) : String :=
  "NON_DETERMINISTIC: " ++ relPath ++ ": field '" ++ key ++ "' contains datetime: "
    ++ pyRepr value

/-- Message of the rule-2 record. -/
def uuid_msg (relPath key value : String) : String :=
  "NON_DETERMINISTIC: " ++ relPath ++ ": field '" ++ key ++ "' contains UUID: " ++ pyRepr value

/-- Message of the rule-3 record. -/
def file_uri_msg (relPath key value : String) : String :=
  "NON_DETERMINISTIC: " ++ relPath ++ ": field '" ++ key ++ "' contains file URI: "
    ++ pyRepr value

/-- Message of the rule-4 record. -/
def abs_path_msg (relPath key value : String) : String :=
  "NON_DETERMINISTIC: " ++ relPath ++ ": field '" ++ key ++ "' contains absolute path: "
    ++ pyRepr value

/-- Model of `_check_string_value`: the precedence-ordered `if/elif`
classifier.  It returns the records appended to the caller's error list
(at most one, since the chain commits to its first matching rule). -/
def check_string_value (value key relPath : String) : List String :=
  if matches_datetime value && value != EPOCH_SENTINEL then [datetime_msg relPath key value]
  else if matches_uuid value then [uuid_msg relPath key value]
  else if matches_file_uri value && !matches_file_uri_allowed value then
    [file_uri_msg relPath key value]
  else if matches_abs_path value then [abs_path_msg relPath key value]
  else []

/-! ## `_walk_values` and `check_determinism` -/

mutual

/-- Model of `_walk_values`: dispatch on the runtime type of `data`
(non-container, non-string leaves produce nothing). -/
def walk_values : Json → String → List String → String → List String
  | .obj kvs, _currentKey, allowlistSchema, relPath => walkDictLoop kvs allowlistSchema relPath
  | .arr items, currentKey, allowlistSchema, relPath =>
    walkListLoop items currentKey allowlistSchema relPath
  | _, _, _, _ => []

/-- The `for k, v in data.items()` loop of `_walk_values`: a string value
is classified unless its key is in the allowlist; a container value is
walked recursively under its key. -/
def walkDictLoop : List (String × Json) → List String → String → List String
  | [], _, _ => []
  | (k, Json.str s) :: rest, allowlistSchema, relPath =>
    (if k ∈ allowlistSchema then [] else check_string_value s k relPath)
      ++ walkDictLoop rest allowlistSchema relPath
  | (k, v) :: rest, allowlistSchema, relPath =>
    walk_values v k allowlistSchema relPath ++ walkDictLoop rest allowlistSchema relPath

/-- The `for item in data` loop of `_walk_values`: a string element is
classified unless the current key is in the allowlist; a container
element is walked recursively under the same current key. -/
def walkListLoop : List Json → String → List String → String → List String
  | [], _, _, _ => []
  | Json.str s :: rest, currentKey, allowlistSchema, relPath =>
    (if currentKey ∈ allowlistSchema then [] else check_string_value s currentKey relPath)
      ++ walkListLoop rest currentKey allowlistSchema relPath
  | v :: rest, currentKey, allowlistSchema, relPath =>
    walk_values v currentKey allowlistSchema relPath
      ++ walkListLoop rest currentKey allowlistSchema relPath

end

mutual

/-- The `(key, string)` occurrences that `_walk_values` submits to
`_check_string_value`: every string leaf together with the field name at
its point of occurrence, excluding allowlisted field names. -/
def checkedPairs : Json → String → List String → List (String × String)
  | .obj kvs, _currentKey, allowlistSchema => cpDictLoop kvs allowlistSchema
  | .arr items, currentKey, allowlistSchema => cpListLoop items currentKey allowlistSchema
  | _, _, _ => []

/-- Checked occurrences contributed by an object's members. -/
def cpDictLoop : List (String × Json) → List String → List (String × String)
  | [], _ => []
  | (k, Json.str s) :: rest, allowlistSchema =>
    (if k ∈ allowlistSchema then [] else [(k, s)]) ++ cpDictLoop rest allowlistSchema
  | (k, v) :: rest, allowlistSchema =>
    checkedPairs v k allowlistSchema ++ cpDictLoop rest allowlistSchema

/-- Checked occurrences contributed by an array's elements. -/
def cpListLoop : List Json → String → List String → List (String × String)
  | [], _, _ => []
  | Json.str s :: rest, currentKey, allowlistSchema =>
    (if currentKey ∈ allowlistSchema then [] else [(currentKey, s)])
      ++ cpListLoop rest currentKey allowlistSchema
  | v :: rest, currentKey, allowlistSchema =>
    checkedPairs v currentKey allowlistSchema ++ cpListLoop rest currentKey allowlistSchema

end

/-- Model of `check_determinism`: select the allowlist entry for the
fixture's schema identifier (its filename stem), defaulting to empty, and
walk the document.  The allowlist models the loaded
`field_allowlist.json` by its key structure only, since only key presence
is consulted. -/
def check_determinism (data : Json) (goldenName : String)
    (allowlist : List (String × List String)) : List String :=
  walk_values data "" ((lookupKV allowlist (pystem goldenName)).getD []) goldenName

/-! ## `run_checks` and `main`

The filesystem state a run consumes is captured by `FS`:

* `protocolVersionExists` — whether `compat/protocol_version.json` exists;
* `goldensDirExists` — whether the `goldens/` root exists;
* `goldenPaths` — the `.json` files below `goldens/` as relative-path
  strings (relative to the contracts directory), in whatever order the
  filesystem enumerates them;
* `readFile` — the raw bytes of each golden, as UTF-8 text;
* `schemaFiles` — name and contents of each file in `schemas/`;
* `allowlist` — the loaded `compat/field_allowlist.json` key structure
  (empty when the file is absent);
* `iterErrors` — the external `jsonschema` Draft-7 validator oracle.

`print` calls are modelled by accumulating the printed lines. -/

structure FS where
  protocolVersionExists : Bool
  goldensDirExists : Bool
  goldenPaths : List String
  readFile : String → String
  schemaFiles : List (String × String)
  allowlist : List (String × List String)
  iterErrors : Json → Json → Except String (List String)

/-- The global record for a missing `compat/protocol_version.json`. -/
def MISSING_MSG : String := "MISSING: compat/protocol_version.json"

/-- Model of `sorted(goldens_dir.rglob("*.json"))`: the discovered
fixtures sorted by the `Path` order `pathLe` (component tuples). -/
def discoveredPaths (fs : FS) : List String := sortLe pathLe fs.goldenPaths

/-- The per-fixture body of the `run_checks` loop: the canonical check
always runs; when the raw bytes fail to parse the fixture's records stop
there (`continue`); otherwise the schema and determinism checks run and
their records are appended in order. -/
def processGolden (fs : FS) (relPath : String) : List String :=
  let raw := fs.readFile relPath
  let canonErrs := check_canonical raw relPath
  match json_loads raw with
  | none => canonErrs
  | some data =>
    canonErrs ++ check_schema data (basename relPath) fs.schemaFiles fs.iterErrors
      ++ check_determinism data (basename relPath) fs.allowlist

/-- The report lines printed for one fixture: one `PASS` line when it has
no records, otherwise one `FAIL` line per record. -/
def fixtureLines (relPath : String) (errs : List String) : List String :=
  if errs.isEmpty then ["PASS   " ++ relPath]
  else errs.map (fun e => "FAIL   " ++ relPath ++ ": " ++ e)

/-- What `run_checks` returns and prints: the accumulated error records,
the golden count, and the printed lines in order. -/
structure RunOutput where
  errors : List String
  goldenCount : Nat
  lines : List String

/-- Model of `run_checks`: the global protocol-version check runs first;
a missing `goldens/` root returns immediately with zero goldens; otherwise
every discovered fixture is processed in sorted order and the summary
header plus the per-fixture report lines are printed in that order. -/
def run_checks (fs : FS) : RunOutput :=
  let pvErrors := if fs.protocolVersionExists then [] else [MISSING_MSG]
  let pvLines := pvErrors.map (fun e => "FAIL   " ++ e)
  if fs.goldensDirExists then
    let paths := discoveredPaths fs
    let results := paths.map (fun p => (p, processGolden fs p))
    { errors := pvErrors ++ results.flatMap Prod.snd
      goldenCount := paths.length
      lines := pvLines ++ ["Contracts verified: " ++ Nat.repr paths.length ++ " goldens"]
        ++ results.flatMap (fun r => fixtureLines r.1 r.2) }
  else
    { errors := pvErrors, goldenCount := 0, lines := pvLines }

/-- What `main` produces: the `sys.exit` status, the `RESULT` line, and
everything printed. -/
structure MainOutput where
  exitCode : Nat
  resultLine : String
  lines : List String

/-- Model of `main` after argument parsing: run the checks, set
`failed = len([e for e in errors])`, print the `RESULT` line and exit
with 1 exactly when the error list is nonempty. -/
def main_run (fs : FS) : MainOutput :=
  let out := run_checks fs
  let failed := out.errors.length
  if out.errors.isEmpty then
    let line := "RESULT: PASS (" ++ Nat.repr out.goldenCount ++ "/" ++ Nat.repr out.goldenCount ++ ")"
    { exitCode := 0, resultLine := line, lines := out.lines ++ [line] }
  else
    let line := "RESULT: FAIL (" ++ Nat.repr failed ++ "/" ++ Nat.repr out.goldenCount ++ " failed)"
    { exitCode := 1, resultLine := line, lines := out.lines ++ [line] }


/-! ## Concrete run configurations used by the closed theorems -/

/-- Scenario A bytes: an object with unsorted keys plus newline. -/
def exampleRawBytes : String := "\x7b\"b\":1,\"a\":2\x7d\n"

/-- A canonical lowercase UUID, exactly rule 2's shape. -/
def exampleUuid : String := "550e8400-e29b-41d4-a716-446655440000"

/-- A fixture whose UUID strings sit under the field name `id` at nesting
depth two — once directly, once as an array element. -/
def nestedFixture : Json :=
  Json.obj [("meta", Json.obj [("id", Json.str exampleUuid)]),
            ("more", Json.obj [("id", Json.arr [Json.str exampleUuid])])]

/-- A run with one golden that is both non-canonical (extra space) and
non-deterministic (a UUID value), under an unmapped stem.  One fixture
fails, with two violation records. -/
def fs_two_records : FS :=
  { protocolVersionExists := true
    goldensDirExists := true
    goldenPaths := ["goldens/Widget.json"]
    readFile := fun _ => "\x7b\"b\": \"550e8400-e29b-41d4-a716-446655440000\"\x7d\n"
    schemaFiles := []
    allowlist := []
    iterErrors := fun _ _ => Except.ok [] }

/-- A run with no goldens at all and a missing protocol-version file:
zero fixtures, one violation record. -/
def fs_missing_pv : FS :=
  { protocolVersionExists := false
    goldensDirExists := true
    goldenPaths := []
    readFile := fun _ => ""
    schemaFiles := []
    allowlist := []
    iterErrors := fun _ _ => Except.ok [] }

/-- A run whose `goldens/` root does not exist. -/
def fs_missing_goldens : FS :=
  { protocolVersionExists := true
    goldensDirExists := false
    goldenPaths := []
    readFile := fun _ => ""
    schemaFiles := []
    allowlist := []
    iterErrors := fun _ _ => Except.ok [] }

/-- A run whose `goldens/` root exists and holds no `.json` file. -/
def fs_empty_goldens : FS :=
  { protocolVersionExists := true
    goldensDirExists := true
    goldenPaths := []
    readFile := fun _ => ""
    schemaFiles := []
    allowlist := []
    iterErrors := fun _ _ => Except.ok [] }

/-- Two passing goldens, enumerated by the filesystem out of order. -/
def fs_enum1 : FS :=
  { protocolVersionExists := true
    goldensDirExists := true
    goldenPaths := ["goldens/b.json", "goldens/a.json"]
    readFile := fun _ => "1\n"
    schemaFiles := []
    allowlist := []
    iterErrors := fun _ _ => Except.ok [] }

/-- The same two goldens, enumerated in the opposite order. -/
def fs_enum2 : FS :=
  { fs_enum1 with goldenPaths := ["goldens/a.json", "goldens/b.json"] }

/-- Two passing goldens whose paths overlap: the directory name `a` is a
proper prefix of the sibling file name `a.json`, the one layout on which
the path order and the string order disagree. -/
def fs_prefix_overlap : FS :=
  { fs_enum1 with goldenPaths := ["goldens/a.json", "goldens/a/b.json"] }

/-! ## Helper lemmas: the string order and the sort -/

theorem char_toNat_inj {a b : Char} (h : a.toNat = b.toNat) : a = b := by
  have h1 : Char.ofNat a.toNat = Char.ofNat b.toNat := by rw [h]
  rwa [Char.ofNat_toNat, Char.ofNat_toNat] at h1

theorem charListLe_cons_iff (a b : Char) (as bs : List Char) :
    charListLe (a :: as) (b :: bs) = true ↔
      a.toNat < b.toNat ∨ (a.toNat = b.toNat ∧ charListLe as bs = true) := by
  rcases Nat.lt_trichotomy a.toNat b.toNat with h | h | h
  · simp [charListLe, h]
  · simp [charListLe, h, show ¬ a.toNat < b.toNat by omega, show ¬ b.toNat < a.toNat by omega]
  · simp only [charListLe, show ¬ a.toNat < b.toNat by omega, if_false, h, if_true]
    constructor
    · intro hf; cases hf
    · rintro (hf | ⟨hf, -⟩)
      · exact hf.elim
      · exfalso; omega

theorem charListLe_total : ∀ as bs, charListLe as bs = true ∨ charListLe bs as = true
  | [], _ => Or.inl rfl
  | _ :: _, [] => Or.inr rfl
  | a :: as, b :: bs => by
    rw [charListLe_cons_iff, charListLe_cons_iff]
    rcases Nat.lt_trichotomy a.toNat b.toNat with h | h | h
    · exact Or.inl (Or.inl h)
    · rcases charListLe_total as bs with ih | ih
      · exact Or.inl (Or.inr ⟨h, ih⟩)
      · exact Or.inr (Or.inr ⟨h.symm, ih⟩)
    · exact Or.inr (Or.inl h)

theorem charListLe_trans : ∀ as bs cs, charListLe as bs = true → charListLe bs cs = true →
    charListLe as cs = true
  | [], _, _, _, _ => rfl
  | _ :: _, [], _, h, _ => by simp [charListLe] at h
  | _ :: _, _ :: _, [], _, h => by simp [charListLe] at h
  | a :: as, b :: bs, c :: cs, h1, h2 => by
    rw [charListLe_cons_iff] at h1 h2 ⊢
    rcases h1 with h1 | ⟨h1, h1r⟩
    · rcases h2 with h2 | ⟨h2, -⟩
      · exact Or.inl (by omega)
      · exact Or.inl (by omega)
    · rcases h2 with h2 | ⟨h2, h2r⟩
      · exact Or.inl (by omega)
      · exact Or.inr ⟨by omega, charListLe_trans as bs cs h1r h2r⟩

theorem charListLe_antisymm : ∀ as bs, charListLe as bs = true → charListLe bs as = true →
    as = bs
  | [], [], _, _ => rfl
  | [], _ :: _, _, h => by simp [charListLe] at h
  | _ :: _, [], h, _ => by simp [charListLe] at h
  | a :: as, b :: bs, h1, h2 => by
    rw [charListLe_cons_iff] at h1 h2
    rcases h1 with h1 | ⟨h1, h1r⟩
    · rcases h2 with h2 | ⟨h2, -⟩ <;> omega
    · rcases h2 with h2 | ⟨h2, h2r⟩
      · omega
      · rw [char_toNat_inj h1, charListLe_antisymm as bs h1r h2r]

theorem str_data_inj {a b : String} (h : a.data = b.data) : a = b := by
  cases a; cases b; exact congrArg String.mk h

theorem strLe_total (a b : String) : strLe a b = true ∨ strLe b a = true :=
  charListLe_total a.data b.data

theorem strLe_trans {a b c : String} (h1 : strLe a b = true) (h2 : strLe b c = true) :
    strLe a c = true :=
  charListLe_trans a.data b.data c.data h1 h2

theorem strLe_antisymm {a b : String} (h1 : strLe a b = true) (h2 : strLe b a = true) : a = b :=
  str_data_inj (charListLe_antisymm a.data b.data h1 h2)

theorem insertLe_perm (le : α → α → Bool) (x : α) :
    ∀ l : List α, (insertLe le x l).Perm (x :: l)
  | [] => List.Perm.refl _
  | y :: ys => by
    by_cases h : le x y = true
    · simp [insertLe, h]
    · simp only [insertLe, h, if_false]
      exact ((insertLe_perm le x ys).cons y).trans (List.Perm.swap x y ys)

theorem sortLe_perm (le : α → α → Bool) : ∀ l : List α, (sortLe le l).Perm l
  | [] => List.Perm.refl _
  | x :: xs => (insertLe_perm le x (sortLe le xs)).trans ((sortLe_perm le xs).cons x)

theorem insertLe_sorted (le : α → α → Bool)
    (htot : ∀ a b, le a b = true ∨ le b a = true)
    (htr : ∀ a b c, le a b = true → le b c = true → le a c = true) (x : α) :
    ∀ l : List α, List.Pairwise (fun a b => le a b = true) l →
      List.Pairwise (fun a b => le a b = true) (insertLe le x l)
  | [], _ => by simp [insertLe]
  | y :: ys, h => by
    rcases List.pairwise_cons.mp h with ⟨hy, hys⟩
    by_cases hxy : le x y = true
    · simp only [insertLe, hxy, if_true]
      refine List.pairwise_cons.mpr ⟨?_, h⟩
      intro z hz
      rcases List.mem_cons.mp hz with rfl | hz
      · exact hxy
      · exact htr x y z hxy (hy z hz)
    · have hyx : le y x = true := (htot x y).resolve_left hxy
      simp only [insertLe, hxy, if_false]
      refine List.pairwise_cons.mpr ⟨?_, insertLe_sorted le htot htr x ys hys⟩
      intro z hz
      rcases List.mem_cons.mp ((insertLe_perm le x ys).mem_iff.mp hz) with rfl | hz
      · exact hyx
      · exact hy z hz

theorem sortLe_sorted (le : α → α → Bool)
    (htot : ∀ a b, le a b = true ∨ le b a = true)
    (htr : ∀ a b c, le a b = true → le b c = true → le a c = true) :
    ∀ l : List α, List.Pairwise (fun a b => le a b = true) (sortLe le l)
  | [] => List.Pairwise.nil
  | x :: xs => insertLe_sorted le htot htr x (sortLe le xs) (sortLe_sorted le htot htr xs)

theorem charListLt_iff (a b : List Char) :
    charListLt a b = true ↔ charListLe a b = true ∧ charListLe b a = false := by
  unfold charListLt
  cases h1 : charListLe a b <;> cases h2 : charListLe b a <;> simp

theorem charListLt_asymm {a b : List Char} (h : charListLt a b = true) :
    charListLt b a = false := by
  cases hx : charListLt b a
  · rfl
  · have h1 := (charListLt_iff a b).mp h
    have h2 := (charListLt_iff b a).mp hx
    exact absurd h1.1 (by simp [h2.2])

theorem charListLt_trans {a b c : List Char} (h1 : charListLt a b = true)
    (h2 : charListLt b c = true) : charListLt a c = true := by
  rw [charListLt_iff] at h1 h2 ⊢
  refine ⟨charListLe_trans a b c h1.1 h2.1, ?_⟩
  cases h3 : charListLe c a
  · rfl
  · have hba : charListLe b a = true := charListLe_trans b c a h2.1 h3
    exact absurd hba (by simp [h1.2])

theorem charListLt_connex {a b : List Char} (h1 : charListLt a b = false)
    (h2 : charListLt b a = false) : a = b := by
  rcases charListLe_total a b with h | h
  · have hba : charListLe b a = true := by
      cases hba : charListLe b a
      · have := (charListLt_iff a b).mpr ⟨h, hba⟩
        simp [h1] at this
      · rfl
    exact charListLe_antisymm a b h hba
  · have hab : charListLe a b = true := by
      cases hab : charListLe a b
      · have := (charListLt_iff b a).mpr ⟨h, hab⟩
        simp [h2] at this
      · rfl
    exact charListLe_antisymm a b hab h

theorem partsLe_cons_iff (a b : List Char) (as bs : List (List Char)) :
    partsLe (a :: as) (b :: bs) = true ↔
      charListLt a b = true ∨
        (charListLt a b = false ∧ charListLt b a = false ∧ partsLe as bs = true) := by
  cases h1 : charListLt a b
  · cases h2 : charListLt b a
    · simp [partsLe, h1, h2]
    · simp [partsLe, h1, h2]
  · simp [partsLe, h1]

theorem partsLe_total : ∀ as bs : List (List Char), partsLe as bs = true ∨ partsLe bs as = true
  | [], _ => Or.inl rfl
  | _ :: _, [] => Or.inr rfl
  | a :: as, b :: bs => by
    rw [partsLe_cons_iff, partsLe_cons_iff]
    cases h1 : charListLt a b
    · cases h2 : charListLt b a
      · rcases partsLe_total as bs with ih | ih
        · exact Or.inl (Or.inr ⟨rfl, rfl, ih⟩)
        · exact Or.inr (Or.inr ⟨rfl, rfl, ih⟩)
      · exact Or.inr (Or.inl rfl)
    · exact Or.inl (Or.inl rfl)

theorem partsLe_trans : ∀ as bs cs : List (List Char), partsLe as bs = true →
    partsLe bs cs = true → partsLe as cs = true
  | [], _, _, _, _ => rfl
  | _ :: _, [], _, h, _ => by simp [partsLe] at h
  | _ :: _, _ :: _, [], _, h => by simp [partsLe] at h
  | a :: as, b :: bs, c :: cs, h1, h2 => by
    rw [partsLe_cons_iff] at h1 h2 ⊢
    rcases h1 with h1 | ⟨h1a, h1b, h1r⟩
    · rcases h2 with h2 | ⟨h2a, h2b, h2r⟩
      · exact Or.inl (charListLt_trans h1 h2)
      · have hbc := charListLt_connex h2a h2b
        exact Or.inl (hbc ▸ h1)
    · have hab := charListLt_connex h1a h1b
      subst hab
      rcases h2 with h2 | ⟨h2a, h2b, h2r⟩
      · exact Or.inl h2
      · exact Or.inr ⟨h2a, h2b, partsLe_trans as bs cs h1r h2r⟩

theorem partsLe_antisymm : ∀ as bs : List (List Char), partsLe as bs = true →
    partsLe bs as = true → as = bs
  | [], [], _, _ => rfl
  | [], _ :: _, _, h => by simp [partsLe] at h
  | _ :: _, [], h, _ => by simp [partsLe] at h
  | a :: as, b :: bs, h1, h2 => by
    rw [partsLe_cons_iff] at h1 h2
    rcases h1 with h1 | ⟨h1a, h1b, h1r⟩
    · rcases h2 with h2 | ⟨h2a, h2b, h2r⟩
      · exact absurd h2 (by simp [charListLt_asymm h1])
      · exact absurd h1 (by simp [h2b])
    · rcases h2 with h2 | ⟨h2a, h2b, h2r⟩
      · exact absurd h2 (by simp [h1b])
      · rw [charListLt_connex h1a h1b, partsLe_antisymm as bs h1r h2r]

theorem splitSlashChars_ne_nil : ∀ cs : List Char, splitSlashChars cs ≠ []
  | [] => by simp [splitSlashChars]
  | c :: cs => by
    by_cases h : c = '/'
    · simp [splitSlashChars, h]
    · simp only [splitSlashChars, h, if_false]
      cases splitSlashChars cs <;> simp

theorem joinSlash_splitSlash : ∀ cs : List Char, joinSlash (splitSlashChars cs) = cs
  | [] => rfl
  | c :: cs => by
    by_cases h : c = '/'
    · subst h
      have hs : splitSlashChars ('/' :: cs) = [] :: splitSlashChars cs := by
        simp [splitSlashChars]
      rw [hs]
      cases hsc : splitSlashChars cs with
      | nil => exact absurd hsc (splitSlashChars_ne_nil cs)
      | cons p ps =>
        have hj : joinSlash ([] :: p :: ps) = '/' :: joinSlash (p :: ps) := rfl
        rw [hj, ← hsc, joinSlash_splitSlash cs]
    · simp only [splitSlashChars, h, if_false]
      cases hsc : splitSlashChars cs with
      | nil => exact absurd hsc (splitSlashChars_ne_nil cs)
      | cons p ps =>
        have ih := joinSlash_splitSlash cs
        rw [hsc] at ih
        cases ps with
        | nil =>
          have hp : joinSlash [p] = p := rfl
          rw [hp] at ih
          show c :: p = c :: cs
          rw [ih]
        | cons q qs =>
          show (c :: p) ++ '/' :: joinSlash (q :: qs) = c :: cs
          rw [List.cons_append]
          have hj : p ++ '/' :: joinSlash (q :: qs) = joinSlash (p :: q :: qs) := rfl
          rw [hj, ih]

theorem splitSlashChars_inj {a b : List Char} (h : splitSlashChars a = splitSlashChars b) :
    a = b := by
  have h2 := congrArg joinSlash h
  rwa [joinSlash_splitSlash, joinSlash_splitSlash] at h2

theorem pathLe_total (a b : String) : pathLe a b = true ∨ pathLe b a = true :=
  partsLe_total _ _

theorem pathLe_trans {a b c : String} (h1 : pathLe a b = true) (h2 : pathLe b c = true) :
    pathLe a c = true :=
  partsLe_trans _ _ _ h1 h2

theorem pathLe_antisymm {a b : String} (h1 : pathLe a b = true) (h2 : pathLe b a = true) :
    a = b :=
  str_data_inj (splitSlashChars_inj (partsLe_antisymm _ _ h1 h2))

theorem sortLe_paths_sorted (l : List String) :
    List.Sorted (fun a b => pathLe a b = true) (sortLe pathLe l) :=
  sortLe_sorted pathLe pathLe_total (fun _ _ _ => pathLe_trans) l

theorem sortLe_paths_eq_of_perm {l1 l2 : List String} (h : l1.Perm l2) :
    sortLe pathLe l1 = sortLe pathLe l2 := by
  haveI : IsAntisymm String (fun a b => pathLe a b = true) := ⟨fun _ _ => pathLe_antisymm⟩
  exact List.eq_of_perm_of_sorted
    ((sortLe_perm pathLe l1).trans (h.trans (sortLe_perm pathLe l2).symm))
    (sortLe_paths_sorted l1) (sortLe_paths_sorted l2)

/-! ## Helper lemmas: decomposing `run_checks` -/

theorem flatMap_map_pair {α β γ : Type} (f : α → β) (g : α → β → List γ) :
    ∀ l : List α,
      ((l.map (fun x => (x, f x))).flatMap (fun r => g r.1 r.2)) = l.flatMap (fun x => g x (f x))
  | [] => rfl
  | x :: xs => by simp [flatMap_map_pair f g xs]

theorem run_checks_errors_eq (fs : FS) (h : fs.goldensDirExists = true) :
    (run_checks fs).errors =
      (if fs.protocolVersionExists then [] else [MISSING_MSG])
        ++ (discoveredPaths fs).flatMap (processGolden fs) := by
  simp only [run_checks, h, if_true]
  exact congrArg _ (flatMap_map_pair (processGolden fs) (fun _ r => r) (discoveredPaths fs))

theorem run_checks_lines_eq (fs : FS) (h : fs.goldensDirExists = true) :
    (run_checks fs).lines =
      (if fs.protocolVersionExists then [] else ["FAIL   " ++ MISSING_MSG])
        ++ ("Contracts verified: " ++ Nat.repr (discoveredPaths fs).length ++ " goldens")
          :: (discoveredPaths fs).flatMap (fun p => fixtureLines p (processGolden fs p)) := by
  simp only [run_checks, h, if_true]
  rw [flatMap_map_pair (processGolden fs) (fun p r => fixtureLines p r) (discoveredPaths fs)]
  by_cases hpv : fs.protocolVersionExists <;> simp [hpv]

/-! ## Helper lemmas: the determinism walk visits exactly the
non-allowlisted string occurrences -/

mutual

theorem walk_values_eq : ∀ (d : Json) (ck : String) (allow : List String) (rel : String),
    walk_values d ck allow rel =
      (checkedPairs d ck allow).flatMap (fun p => check_string_value p.2 p.1 rel)
  | .obj kvs, _ck, allow, rel => by
    simp only [walk_values, checkedPairs]; exact walkDictLoop_eq kvs allow rel
  | .arr items, ck, allow, rel => by
    simp only [walk_values, checkedPairs]; exact walkListLoop_eq items ck allow rel
  | .null, _, _, _ => by simp [walk_values, checkedPairs]
  | .bool _, _, _, _ => by simp [walk_values, checkedPairs]
  | .num _, _, _, _ => by simp [walk_values, checkedPairs]
  | .str _, _, _, _ => by simp [walk_values, checkedPairs]

theorem walkDictLoop_eq : ∀ (kvs : List (String × Json)) (allow : List String) (rel : String),
    walkDictLoop kvs allow rel =
      (cpDictLoop kvs allow).flatMap (fun p => check_string_value p.2 p.1 rel)
  | [], _, _ => by simp [walkDictLoop, cpDictLoop]
  | (k, Json.str s) :: rest, allow, rel => by
    by_cases h : k ∈ allow <;>
      simp [walkDictLoop, cpDictLoop, h, walkDictLoop_eq rest allow rel]
  | (k, Json.null) :: rest, allow, rel => by
    simp [walkDictLoop, cpDictLoop, walk_values_eq, walkDictLoop_eq rest allow rel]
  | (k, Json.bool b) :: rest, allow, rel => by
    simp [walkDictLoop, cpDictLoop, walk_values_eq, walkDictLoop_eq rest allow rel]
  | (k, Json.num n) :: rest, allow, rel => by
    simp [walkDictLoop, cpDictLoop, walk_values_eq, walkDictLoop_eq rest allow rel]
  | (k, Json.arr items) :: rest, allow, rel => by
    simp [walkDictLoop, cpDictLoop, walk_values_eq, walkDictLoop_eq rest allow rel]
  | (k, Json.obj kvs2) :: rest, allow, rel => by
    simp [walkDictLoop, cpDictLoop, walk_values_eq, walkDictLoop_eq rest allow rel]

theorem walkListLoop_eq : ∀ (items : List Json) (ck : String) (allow : List String)
    (rel : String),
    walkListLoop items ck allow rel =
      (cpListLoop items ck allow).flatMap (fun p => check_string_value p.2 p.1 rel)
  | [], _, _, _ => by simp [walkListLoop, cpListLoop]
  | Json.str s :: rest, ck, allow, rel => by
    by_cases h : ck ∈ allow <;>
      simp [walkListLoop, cpListLoop, h, walkListLoop_eq rest ck allow rel]
  | Json.null :: rest, ck, allow, rel => by
    simp [walkListLoop, cpListLoop, walk_values_eq, walkListLoop_eq rest ck allow rel]
  | Json.bool b :: rest, ck, allow, rel => by
    simp [walkListLoop, cpListLoop, walk_values_eq, walkListLoop_eq rest ck allow rel]
  | Json.num n :: rest, ck, allow, rel => by
    simp [walkListLoop, cpListLoop, walk_values_eq, walkListLoop_eq rest ck allow rel]
  | Json.arr its :: rest, ck, allow, rel => by
    simp [walkListLoop, cpListLoop, walk_values_eq, walkListLoop_eq rest ck allow rel]
  | Json.obj kvs :: rest, ck, allow, rel => by
    simp [walkListLoop, cpListLoop, walk_values_eq, walkListLoop_eq rest ck allow rel]

end

mutual

theorem checkedPairs_key_not_allowed : ∀ (d : Json) (ck : String) (allow : List String)
    (p : String × String), p ∈ checkedPairs d ck allow → p.1 ∉ allow
  | .obj kvs, _ck, allow, p => by
    simp only [checkedPairs]; exact cpDictLoop_key_not_allowed kvs allow p
  | .arr items, ck, allow, p => by
    simp only [checkedPairs]; exact cpListLoop_key_not_allowed items ck allow p
  | .null, _, _, _ => by simp [checkedPairs]
  | .bool _, _, _, _ => by simp [checkedPairs]
  | .num _, _, _, _ => by simp [checkedPairs]
  | .str _, _, _, _ => by simp [checkedPairs]

theorem cpDictLoop_key_not_allowed : ∀ (kvs : List (String × Json)) (allow : List String)
    (p : String × String), p ∈ cpDictLoop kvs allow → p.1 ∉ allow
  | [], _, p => by simp [cpDictLoop]
  | (k, Json.str s) :: rest, allow, p => by
    by_cases h : k ∈ allow
    · simp only [cpDictLoop, h, if_true, List.nil_append]
      exact cpDictLoop_key_not_allowed rest allow p
    · simp only [cpDictLoop, h, if_false, List.singleton_append]
      intro hp
      rcases List.mem_cons.mp hp with rfl | hp
      · exact h
      · exact cpDictLoop_key_not_allowed rest allow p hp
  | (k, Json.null) :: rest, allow, p => by
    simp only [cpDictLoop]
    intro hp
    rcases List.mem_append.mp hp with hp | hp
    · exact checkedPairs_key_not_allowed Json.null k allow p hp
    · exact cpDictLoop_key_not_allowed rest allow p hp
  | (k, Json.bool b) :: rest, allow, p => by
    simp only [cpDictLoop]
    intro hp
    rcases List.mem_append.mp hp with hp | hp
    · exact checkedPairs_key_not_allowed (Json.bool b) k allow p hp
    · exact cpDictLoop_key_not_allowed rest allow p hp
  | (k, Json.num n) :: rest, allow, p => by
    simp only [cpDictLoop]
    intro hp
    rcases List.mem_append.mp hp with hp | hp
    · exact checkedPairs_key_not_allowed (Json.num n) k allow p hp
    · exact cpDictLoop_key_not_allowed rest allow p hp
  | (k, Json.arr items) :: rest, allow, p => by
    simp only [cpDictLoop]
    intro hp
    rcases List.mem_append.mp hp with hp | hp
    · exact checkedPairs_key_not_allowed (Json.arr items) k allow p hp
    · exact cpDictLoop_key_not_allowed rest allow p hp
  | (k, Json.obj kvs2) :: rest, allow, p => by
    simp only [cpDictLoop]
    intro hp
    rcases List.mem_append.mp hp with hp | hp
    · exact checkedPairs_key_not_allowed (Json.obj kvs2) k allow p hp
    · exact cpDictLoop_key_not_allowed rest allow p hp

theorem cpListLoop_key_not_allowed : ∀ (items : List Json) (ck : String) (allow : List String)
    (p : String × String), p ∈ cpListLoop items ck allow → p.1 ∉ allow
  | [], _, _, p => by simp [cpListLoop]
  | Json.str s :: rest, ck, allow, p => by
    by_cases h : ck ∈ allow
    · simp only [cpListLoop, h, if_true, List.nil_append]
      exact cpListLoop_key_not_allowed rest ck allow p
    · simp only [cpListLoop, h, if_false, List.singleton_append]
      intro hp
      rcases List.mem_cons.mp hp with rfl | hp
      · exact h
      · exact cpListLoop_key_not_allowed rest ck allow p hp
  | Json.null :: rest, ck, allow, p => by
    simp only [cpListLoop]
    intro hp
    rcases List.mem_append.mp hp with hp | hp
    · exact checkedPairs_key_not_allowed Json.null ck allow p hp
    · exact cpListLoop_key_not_allowed rest ck allow p hp
  | Json.bool b :: rest, ck, allow, p => by
    simp only [cpListLoop]
    intro hp
    rcases List.mem_append.mp hp with hp | hp
    · exact checkedPairs_key_not_allowed (Json.bool b) ck allow p hp
    · exact cpListLoop_key_not_allowed rest ck allow p hp
  | Json.num n :: rest, ck, allow, p => by
    simp only [cpListLoop]
    intro hp
    rcases List.mem_append.mp hp with hp | hp
    · exact checkedPairs_key_not_allowed (Json.num n) ck allow p hp
    · exact cpListLoop_key_not_allowed rest ck allow p hp
  | Json.arr its :: rest, ck, allow, p => by
    simp only [cpListLoop]
    intro hp
    rcases List.mem_append.mp hp with hp | hp
    · exact checkedPairs_key_not_allowed (Json.arr its) ck allow p hp
    · exact cpListLoop_key_not_allowed rest ck allow p hp
  | Json.obj kvs :: rest, ck, allow, p => by
    simp only [cpListLoop]
    intro hp
    rcases List.mem_append.mp hp with hp | hp
    · exact checkedPairs_key_not_allowed (Json.obj kvs) ck allow p hp
    · exact cpListLoop_key_not_allowed rest ck allow p hp

end

/-! ## The claims -/

/-- C1: for every run the process exit status is 0 iff the total number
of violation records is zero, else 1 — where the error list of
`run_checks` is exactly the per-fixture NotCanonical / SchemaInvalid /
NonDeterministic records in discovery order plus the one global Missing
record produced when `compat/protocol_version.json` is absent. -/
theorem exit_code_zero_iff_no_violations :
    (∀ fs : FS, (main_run fs).exitCode = 0 ↔ (run_checks fs).errors.length = 0) ∧
    (∀ fs : FS, (main_run fs).exitCode = 1 ↔ (run_checks fs).errors.length ≠ 0) ∧
    (∀ fs : FS, fs.goldensDirExists = true →
      (run_checks fs).errors =
        (if fs.protocolVersionExists then [] else [MISSING_MSG])
          ++ (discoveredPaths fs).flatMap (processGolden fs)) ∧
    (∀ fs : FS, fs.goldensDirExists = false →
      (run_checks fs).errors = (if fs.protocolVersionExists then [] else [MISSING_MSG])) := by
  refine ⟨?_, ?_, run_checks_errors_eq, ?_⟩
  · intro fs
    simp only [main_run]
    rcases h : (run_checks fs).errors with _ | ⟨e, es⟩ <;> simp [h]
  · intro fs
    simp only [main_run]
    rcases h : (run_checks fs).errors with _ | ⟨e, es⟩ <;> simp [h]
  · intro fs h
    simp [run_checks, h]

theorem exit_code_zero_iff_no_violations_witness :
    (main_run fs_empty_goldens).exitCode = 0 ∧
    (run_checks fs_missing_goldens).errors =
      (if fs_missing_goldens.protocolVersionExists then [] else [MISSING_MSG]) :=
  ⟨(exit_code_zero_iff_no_violations.1 fs_empty_goldens).mpr (by decide),
   exit_code_zero_iff_no_violations.2.2.2 fs_missing_goldens (by decide)⟩

/-- C2: `check_canonical` produces no violation record iff the fixture's
raw bytes are exactly the recomputed canonical serialization of its
parsed document (object keys sorted, minimal separators, one trailing
newline, UTF-8); the scenario-A bytes (an unsorted-key object plus
newline) are not canonical, and their recomputed canonical form is the
sorted-key object plus newline. -/
theorem canonical_iff_bytes_equal_recomputed :
    (∀ raw rel : String, check_canonical raw rel = [] ↔
      ∃ d : Json, json_loads raw = some d ∧ raw = canonical_bytes d) ∧
    check_canonical exampleRawBytes "goldens/x.json" = [not_canonical_msg "goldens/x.json"] ∧
    (json_loads exampleRawBytes).map canonical_bytes = some "\x7b\"a\":2,\"b\":1\x7d\n" := by
  refine ⟨?_, by decide, rfl⟩
  intro raw rel
  unfold check_canonical
  cases h : json_loads raw with
  | none => simp
  | some d =>
    by_cases he : raw = canonical_bytes d
    · simp [he]
    · simp [he]

theorem canonical_iff_bytes_equal_recomputed_witness :
    check_canonical "\x7b\x7d\n" "g.json" = [] :=
  (canonical_iff_bytes_equal_recomputed.1 "\x7b\x7d\n" "g.json").mpr
    ⟨Json.obj [], rfl, by decide⟩

/-- C3: the exact epoch sentinel string never produces any record (in
particular no datetime record); every other string matching the anchored
`YYYY-MM-DDTHH:MM:SS` shape produces exactly the one datetime record; and
the precedence-ordered classifier emits at most one record per value. -/
theorem epoch_sentinel_and_datetime_rule :
    (∀ key rel : String, check_string_value EPOCH_SENTINEL key rel = []) ∧
    (∀ v key rel : String, matches_datetime v = true → v ≠ EPOCH_SENTINEL →
      check_string_value v key rel = [datetime_msg rel key v]) ∧
    (∀ v key rel : String, (check_string_value v key rel).length ≤ 1) := by
  refine ⟨fun _ _ => rfl, ?_, ?_⟩
  · intro v key rel h1 h2
    simp [check_string_value, h1, bne_iff_ne.mpr h2]
  · intro v key rel
    unfold check_string_value
    split_ifs <;> simp

theorem epoch_sentinel_and_datetime_rule_witness :
    check_string_value "2024-05-01T12:00:00Z" "ts" "f.json" =
      [datetime_msg "f.json" "ts" "2024-05-01T12:00:00Z"] :=
  epoch_sentinel_and_datetime_rule.2.1 "2024-05-01T12:00:00Z" "ts" "f.json"
    (by decide) (by decide)

/-- C4: the walk's records come exactly from the checked occurrences — a
string value under the field name at its point of occurrence, directly or
as an array element — and no checked occurrence carries an allowlisted
field name, so a string under an allowlisted field is never flagged even
when it matches rules 1-4; the exemption is by field name, not full path,
as the nested fixture (UUIDs under `id` at depth two) shows. -/
theorem allowlisted_fields_never_flagged :
    (∀ (d : Json) (ck : String) (allow : List String) (rel : String),
      walk_values d ck allow rel =
        (checkedPairs d ck allow).flatMap (fun p => check_string_value p.2 p.1 rel)) ∧
    (∀ (d : Json) (ck f s : String) (allow : List String),
      f ∈ allow → (f, s) ∉ checkedPairs d ck allow) ∧
    check_determinism nestedFixture "Script.json" [("Script", ["id"])] = [] ∧
    check_determinism nestedFixture "Script.json" [] =
      [uuid_msg "Script.json" "id" exampleUuid, uuid_msg "Script.json" "id" exampleUuid] := by
  refine ⟨walk_values_eq, ?_, by decide, by decide⟩
  intro d ck f s allow hf hmem
  exact checkedPairs_key_not_allowed d ck allow (f, s) hmem hf

theorem allowlisted_fields_never_flagged_witness :
    ("id", exampleUuid) ∉ checkedPairs nestedFixture "" ["id"] :=
  allowlisted_fields_never_flagged.2.1 nestedFixture "" "id" exampleUuid ["id"] (by decide)

/-- C5: a fixture whose raw bytes fail to parse as JSON yields exactly
one record — a not-canonical record with the distinct parse-error message
(distinct from the plain not-canonical message) — and no schema or
determinism records; the run's error list keeps one independent
contribution per discovered fixture, so the other fixtures are still
processed. -/
theorem parse_failure_single_record :
    (∀ (fs : FS) (rel : String), json_loads (fs.readFile rel) = none →
      processGolden fs rel = [parse_error_msg rel]) ∧
    (∀ rel : String, parse_error_msg rel ≠ not_canonical_msg rel) ∧
    (∀ fs : FS, fs.goldensDirExists = true →
      (run_checks fs).errors =
        (if fs.protocolVersionExists then [] else [MISSING_MSG])
          ++ (discoveredPaths fs).flatMap (processGolden fs)) := by
  refine ⟨?_, ?_, run_checks_errors_eq⟩
  · intro fs rel h
    simp [processGolden, check_canonical, h]
  · intro rel h
    have h2 : ("NOT_CANONICAL: JSON parse error in " ++ rel).length
        = ("NOT_CANONICAL: " ++ rel).length := congrArg String.length h
    rw [String.length_append, String.length_append] at h2
    have e1 : ("NOT_CANONICAL: JSON parse error in " : String).length = 35 := by decide
    have e2 : ("NOT_CANONICAL: " : String).length = 15 := by decide
    omega

theorem parse_failure_single_record_witness :
    processGolden fs_missing_pv "goldens/broken.json" = [parse_error_msg "goldens/broken.json"] :=
  parse_failure_single_record.1 fs_missing_pv "goldens/broken.json" rfl

/-- C6: a SchemaInvalid record requires a schema-table entry for the
fixture's filename stem: an unmapped stem yields no records regardless of
content, and a mapped stem whose schema file is absent yields exactly the
one schema-file-not-found record. -/
theorem schema_records_require_mapping :
    (∀ (data : Json) (name : String) (files : List (String × String))
      (oracle : Json → Json → Except String (List String)),
      lookupKV SCHEMA_MAP (pystem name) = none →
      check_schema data name files oracle = []) ∧
    (∀ (data : Json) (name : String) (files : List (String × String))
      (oracle : Json → Json → Except String (List String)) (sf : String),
      lookupKV SCHEMA_MAP (pystem name) = some sf →
      lookupKV files sf = none →
      check_schema data name files oracle = [schema_not_found_msg name sf]) ∧
    (∀ (data : Json) (name : String) (files : List (String × String))
      (oracle : Json → Json → Except String (List String)),
      check_schema data name files oracle ≠ [] →
      (lookupKV SCHEMA_MAP (pystem name)).isSome = true) := by
  refine ⟨?_, ?_, ?_⟩
  · intro data name files oracle h
    simp [check_schema, h]
  · intro data name files oracle sf h1 h2
    simp [check_schema, h1, h2]
  · intro data name files oracle h
    cases hm : lookupKV SCHEMA_MAP (pystem name) with
    | none => exact absurd (by simp [check_schema, hm]) h
    | some sf => simp

theorem schema_records_require_mapping_witness :
    check_schema Json.null "Widget.json" [] (fun _ _ => Except.ok []) = [] ∧
    check_schema Json.null "Script.json" [] (fun _ _ => Except.ok []) =
      [schema_not_found_msg "Script.json" "Script.v1.json"] :=
  ⟨schema_records_require_mapping.1 Json.null "Widget.json" [] (fun _ _ => Except.ok [])
     (by decide),
   schema_records_require_mapping.2.1 Json.null "Script.json" [] (fun _ _ => Except.ok [])
     "Script.v1.json" (by decide) (by decide)⟩

/-- C7 counterexample: discovery is not sorted lexicographically by the
relative-path string.  `sorted` compares `Path` values by component
tuples, so with the sibling entries `a.json` and `a/` the file
`goldens/a/b.json` is discovered before `goldens/a.json` (component `a`
sorts before component `a.json`), while the string order — `'.'` is
below `'/'` — puts `goldens/a.json` first. -/
theorem discovery_not_string_lexicographic :
    discoveredPaths fs_prefix_overlap = ["goldens/a/b.json", "goldens/a.json"] ∧
    strLe "goldens/a.json" "goldens/a/b.json" = true ∧
    ¬ List.Sorted (fun a b => strLe a b = true) (discoveredPaths fs_prefix_overlap) := by
  have hd : discoveredPaths fs_prefix_overlap = ["goldens/a/b.json", "goldens/a.json"] := by
    decide
  refine ⟨hd, by decide, ?_⟩
  intro h
  rw [hd] at h
  have := (List.pairwise_cons.mp h).1 "goldens/a.json" (by simp)
  exact absurd this (by decide)

/-- C7 (amended): discovery sorts the fixtures by pathlib's path order —
lexicographic on the tuple of `/`-separated path components, each
component compared by code point, which coincides with the relative-path
string order except when a directory name is a proper prefix of a
sibling entry — the sorted result is the same for any filesystem
enumeration order of the same files, and the per-fixture PASS/FAIL
report lines appear in exactly the discovery order. -/
theorem discovery_sorted_and_report_in_order :
    (∀ fs : FS, List.Sorted (fun a b => pathLe a b = true) (discoveredPaths fs)) ∧
    (∀ fs1 fs2 : FS, fs1.goldenPaths.Perm fs2.goldenPaths →
      discoveredPaths fs1 = discoveredPaths fs2) ∧
    (∀ fs : FS, fs.goldensDirExists = true →
      (run_checks fs).lines =
        (if fs.protocolVersionExists then [] else ["FAIL   " ++ MISSING_MSG])
          ++ ("Contracts verified: " ++ Nat.repr (discoveredPaths fs).length ++ " goldens")
            :: (discoveredPaths fs).flatMap (fun p => fixtureLines p (processGolden fs p))) := by
  refine ⟨fun fs => sortLe_paths_sorted fs.goldenPaths, ?_, run_checks_lines_eq⟩
  intro fs1 fs2 h
  exact sortLe_paths_eq_of_perm h

theorem discovery_sorted_and_report_in_order_witness :
    discoveredPaths fs_enum1 = discoveredPaths fs_enum2 ∧
    (run_checks fs_enum1).lines =
      (if fs_enum1.protocolVersionExists then [] else ["FAIL   " ++ MISSING_MSG])
        ++ ("Contracts verified: " ++ Nat.repr (discoveredPaths fs_enum1).length ++ " goldens")
          :: (discoveredPaths fs_enum1).flatMap
            (fun p => fixtureLines p (processGolden fs_enum1 p)) :=
  ⟨discovery_sorted_and_report_in_order.2.1 fs_enum1 fs_enum2
     (List.Perm.swap "goldens/a.json" "goldens/b.json" []),
   discovery_sorted_and_report_in_order.2.2 fs_enum1 rfl⟩

/-- C8 (code bug): the claim says the tool prints a one-line summary
distinguishing pass and fail counts and a final
`RESULT: FAIL (<failed>/<N> failed)` line where `<failed>` counts failed
fixtures.  The code prints `Contracts verified: N goldens` with no
pass/fail split, and computes `failed = len([e for e in errors])` — the
number of violation records, Missing included — although its own comment
says "Count distinct goldens that failed".  At `fs_two_records` exactly
one fixture out of one fails, with two records, and the tool prints
`RESULT: FAIL (2/1 failed)`; at `fs_missing_pv` no fixture exists at all
and it prints `RESULT: FAIL (1/0 failed)`. -/
theorem result_line_counts_records_not_fixtures :
    (run_checks fs_two_records).goldenCount = 1 ∧
    (run_checks fs_two_records).errors.length = 2 ∧
    (main_run fs_two_records).resultLine = "RESULT: FAIL (2/1 failed)" ∧
    (main_run fs_two_records).lines =
      ["Contracts verified: 1 goldens",
       "FAIL   goldens/Widget.json: NOT_CANONICAL: goldens/Widget.json",
       "FAIL   goldens/Widget.json: NON_DETERMINISTIC: Widget.json: field 'b' contains UUID: '550e8400-e29b-41d4-a716-446655440000'",
       "RESULT: FAIL (2/1 failed)"] ∧
    (main_run fs_missing_pv).resultLine = "RESULT: FAIL (1/0 failed)" :=
  ⟨by decide, by decide, by decide, by decide, by decide⟩

/-- C9: when the goldens root does not exist, discovery is empty rather
than an error: zero goldens are reported and, with the protocol-version
file present, the run prints `RESULT: PASS (0/0)` and exits 0 — the same
outcome as an existing goldens directory with zero `.json` files. -/
theorem missing_goldens_root_passes :
    (∀ fs : FS, fs.protocolVersionExists = true → fs.goldensDirExists = false →
      (run_checks fs).errors = [] ∧ (run_checks fs).goldenCount = 0 ∧
      (main_run fs).exitCode = 0 ∧ (main_run fs).resultLine = "RESULT: PASS (0/0)") ∧
    (main_run fs_missing_goldens).exitCode = (main_run fs_empty_goldens).exitCode ∧
    (main_run fs_missing_goldens).resultLine = (main_run fs_empty_goldens).resultLine ∧
    (run_checks fs_missing_goldens).goldenCount = (run_checks fs_empty_goldens).goldenCount := by
  refine ⟨?_, by decide, by decide, by decide⟩
  intro fs h1 h2
  have he : (run_checks fs).errors = [] := by simp [run_checks, h1, h2]
  have hc : (run_checks fs).goldenCount = 0 := by simp [run_checks, h2]
  have hb : (run_checks fs).errors.isEmpty = true := by simp [he]
  refine ⟨he, hc, ?_, ?_⟩
  · simp [main_run, hb]
  · simp [main_run, hb, hc]
    decide

theorem missing_goldens_root_passes_witness :
    (main_run fs_missing_goldens).exitCode = 0 ∧
    (main_run fs_missing_goldens).resultLine = "RESULT: PASS (0/0)" :=
  ⟨(missing_goldens_root_passes.1 fs_missing_goldens rfl rfl).2.2.1,
   (missing_goldens_root_passes.1 fs_missing_goldens rfl rfl).2.2.2⟩

/-- C10: `check_schema` yields at most one record for a fixture, and an
exception raised while loading or validating the schema — for example a
schema file that is not valid JSON — is caught and becomes exactly one
SchemaInvalid record instead of propagating; every fixture still
contributes its own independent records to the run. -/
theorem schema_exceptions_become_records :
    (∀ (data : Json) (name : String) (files : List (String × String))
      (oracle : Json → Json → Except String (List String)),
      (check_schema data name files oracle).length ≤ 1) ∧
    (∀ (data : Json) (name : String) (files : List (String × String))
      (oracle : Json → Json → Except String (List String)) (sf bytes e : String),
      lookupKV SCHEMA_MAP (pystem name) = some sf →
      lookupKV files sf = some bytes →
      loadAndValidate bytes data oracle = Except.error e →
      check_schema data name files oracle = [schema_exc_msg name e]) ∧
    (∀ (data : Json) (name : String) (files : List (String × String))
      (oracle : Json → Json → Except String (List String)) (sf bytes : String),
      lookupKV SCHEMA_MAP (pystem name) = some sf →
      lookupKV files sf = some bytes →
      json_loads bytes = none →
      check_schema data name files oracle = [schema_exc_msg name "schema JSON parse error"]) ∧
    (∀ fs : FS, fs.goldensDirExists = true →
      (run_checks fs).errors =
        (if fs.protocolVersionExists then [] else [MISSING_MSG])
          ++ (discoveredPaths fs).flatMap (processGolden fs)) := by
  refine ⟨?_, ?_, ?_, run_checks_errors_eq⟩
  · intro data name files oracle
    cases hm : lookupKV SCHEMA_MAP (pystem name) with
    | none => simp [check_schema, hm]
    | some sf =>
      cases hf : lookupKV files sf with
      | none => simp [check_schema, hm, hf]
      | some bytes =>
        cases hl : loadAndValidate bytes data oracle with
        | error e => simp [check_schema, hm, hf, hl]
        | ok errs =>
          cases errs with
          | nil => simp [check_schema, hm, hf, hl]
          | cons e es => simp [check_schema, hm, hf, hl]
  · intro data name files oracle sf bytes e h1 h2 h3
    simp [check_schema, h1, h2, h3]
  · intro data name files oracle sf bytes h1 h2 h3
    simp [check_schema, h1, h2, loadAndValidate, h3]

theorem schema_exceptions_become_records_witness :
    check_schema Json.null "Script.json" [("Script.v1.json", "not json")]
      (fun _ _ => Except.ok []) = [schema_exc_msg "Script.json" "schema JSON parse error"] :=
  schema_exceptions_become_records.2.2.1 Json.null "Script.json"
    [("Script.v1.json", "not json")] (fun _ _ => Except.ok []) "Script.v1.json" "not json"
    (by decide) (by decide) rfl

/-! ## Model validation

Closed evaluations checking the embedding against the observed behaviour
of the Python building blocks on the same inputs. -/

example : json_loads "\x7b\"b\":1,\"a\":2\x7d\n" =
    some (.obj [("b", .num 1), ("a", .num 2)]) := rfl

example : json_loads " [1, -2, \"x\", true, false, null] " =
    some (.arr [.num 1, .num (-2), .str "x", .bool true, .bool false, .null]) := rfl

example : json_loads "\x7b\"a\":1,\"a\":2\x7d" = some (.obj [("a", .num 2)]) := rfl

example : json_loads "nope" = none := rfl

example : json_loads "\x7b\"a\":1" = none := rfl

example : json_loads "1.5" = none := rfl

example : json_loads "\"a\\nb\\u0041\"" = some (.str "a\nbA") := rfl

example : canonical_bytes (.str "a\nb\x7f") = "\"a\\nb\\u007f\"\n" := by decide

example : pystem "a.b.json" = "a.b" ∧ pystem ".json" = ".json" ∧ pystem "a." = "a." := by decide

example : matches_uuid "550e8400-e29b-41d4-a716-446655440000\n" = true := by decide

example : matches_uuid "550e8400-e29b-41d4-a716-446655440000\n\n" = false := by decide

example : matches_uuid "550E8400-e29b-41d4-a716-446655440000" = false := by decide

example : matches_file_uri_allowed "file:///placeholderX" = false := by decide

example : matches_file_uri_allowed "file:///placeholder\n" = true := by decide

example : check_string_value "file:///tmp/x" "u" "f.json" =
    [file_uri_msg "f.json" "u" "file:///tmp/x"] := by decide

example : check_string_value "file:///placeholder/x" "u" "f.json" = [] := by decide

example : pyRepr "it's" = "\"it's\"" ∧ pyRepr "a\tb\x01" = "'a\\tb\\x01'" := by decide

example : sortLe pathLe
    ["goldens/a-x.json", "goldens/a/b.json", "goldens/a.json", "goldens/ab/c.json"] =
    ["goldens/a/b.json", "goldens/a-x.json", "goldens/a.json", "goldens/ab/c.json"] := by decide

end VerifyContracts
